import Mathlib

/-!
Shallow embedding of the ZapTech cost-calculator core (`app.py`,
`power_cost.py`) and proofs of the specification's claims about it.

Modelling conventions:
* An instant (a timezone-aware Python `datetime`) is the integer number of
  microseconds since the Unix epoch, of type `ℤ`.  `astimezone` does not
  change the instant a `datetime` denotes, only its representation, so in the
  embedding a conversion such as `parser.parse(s).astimezone(pytz.utc)` is the
  identity on the instant.  Taking the calendar date of an instant in some
  time zone is modelled by a function `ℤ → ℤ` (day number since epoch).
* Python float arithmetic is modelled by exact rational arithmetic (`ℚ`).
* The on-disk JSON day-price cache is modelled as an association list from
  `(local day, price area)` to the parsed interval list (JSON serialisation
  and re-parsing are modelled as the identity), together with a counter of
  network fetches performed.  The HTTP price provider is a function
  `day → area → Option (List ElectricityCost)`; `none` models a non-200
  response, which the source turns into a raised exception (`Except.error`).
-/

/-- Microseconds in a day. -/
def usPerDay : ℤ := 86400000000

/-- Microseconds in an hour. -/
def usPerHour : ℤ := 3600000000

/-- Microseconds in a second. -/
def usPerSecond : ℤ := 1000000

/-- Day number (days since epoch) of an instant, i.e. `datetime.date()` of a
UTC-represented instant.  `Int` division by a positive divisor is floor
division, matching Python. -/
def dayOf (t : ℤ) : ℤ := t / usPerDay

/-- Python's `datetime.weekday()`: Monday = 0, ..., Sunday = 6.
1970-01-01 (day 0) was a Thursday (weekday 3). -/
def pyWeekday (t : ℤ) : ℤ := (dayOf t + 3) % 7

/-- Microsecond of the day of an instant (its UTC time-of-day). -/
def todUs (t : ℤ) : ℤ := t % usPerDay

/-- Python's `datetime.replace(hour=h, minute=m, second=s, microsecond=us)` on
the UTC representation of an instant: same day, given wall-clock time. -/
def replaceTime (t : ℤ) (h m s us : ℤ) : ℤ :=
  dayOf t * usPerDay + h * usPerHour + m * 60000000 + s * usPerSecond + us

/-- The net-usage-fee (distribution tariff) selection from
`app.py:get_charging_session_energy` (lines 67-78), applied to the sample's
`energy_datetime` (which the source has converted to UTC): build
`daytime_start`/`daytime_end` by `replace`, test `daytime_start <=
energy_datetime < daytime_end`, and test `weekday() >= 5`; day-time weekdays
get `high_net_usage_fee`, nights and weekends get `low_net_usage_fee`. -/
def net_usage_fee_per_kwh (t : ℤ) (low high : ℚ) : ℚ :=
  let daytime_start := replaceTime t 6 0 0 0
  let daytime_end := replaceTime t 22 0 0 0
  let is_weekend := 5 ≤ pyWeekday t
  if daytime_start ≤ t ∧ t < daytime_end ∧ ¬ is_weekend then high else low

/-- Default `low_net_usage_fee` argument of `get_charging_session_energy`. -/
def default_low_net_usage_fee : ℚ := 0.2259

/-- Default `high_net_usage_fee` argument of `get_charging_session_energy`. -/
def default_high_net_usage_fee : ℚ := 0.3059

/-- The tariff selection is the weekday/time-of-day rule: low on weekends and
outside local-representation `[06:00, 22:00)`, high otherwise. -/
theorem net_usage_fee_spec (t : ℤ) (low high : ℚ) :
    net_usage_fee_per_kwh t low high =
      if 5 ≤ pyWeekday t ∨ todUs t < 6 * usPerHour ∨ 22 * usPerHour ≤ todUs t
      then low else high := by
  unfold net_usage_fee_per_kwh replaceTime pyWeekday todUs dayOf usPerDay usPerHour usPerSecond
  dsimp only
  split <;> split <;> first | rfl | (exfalso; omega)

/-- C5: the tariff rule: on every instant whose weekday is Saturday or Sunday,
or whose time-of-day is before 06:00:00 or at/after 22:00:00, the low rate is
returned; on a weekday with time-of-day in `[06:00:00, 22:00:00)` the high
rate is returned.  (In particular 06:00:00 exactly on a weekday is high,
22:00:00 exactly is low, and all weekend instants are low.) -/
theorem tariff_rule_cases (t : ℤ) (low high : ℚ) :
    (5 ≤ pyWeekday t ∨ todUs t < 6 * usPerHour ∨ 22 * usPerHour ≤ todUs t →
      net_usage_fee_per_kwh t low high = low) ∧
    (pyWeekday t < 5 → 6 * usPerHour ≤ todUs t → todUs t < 22 * usPerHour →
      net_usage_fee_per_kwh t low high = high) := by
  constructor
  · intro h
    rw [net_usage_fee_spec, if_pos h]
  · intro hw h6 h22
    rw [net_usage_fee_spec, if_neg (by omega)]

/-- Witness for `tariff_rule_cases`: Monday 2023-09-18 at 06:00:00 UTC (day
19618, weekday 0) takes the high rate; Saturday 2023-09-16 at 12:00:00 UTC
(day 19616, weekday 5) takes the low rate. -/
theorem tariff_rule_cases_witness :
    net_usage_fee_per_kwh (19618 * 86400000000 + 6 * 3600000000)
        default_low_net_usage_fee default_high_net_usage_fee =
      default_high_net_usage_fee ∧
    net_usage_fee_per_kwh (19616 * 86400000000 + 12 * 3600000000)
        default_low_net_usage_fee default_high_net_usage_fee =
      default_low_net_usage_fee := by
  constructor
  · exact (tariff_rule_cases (19618 * 86400000000 + 6 * 3600000000)
      default_low_net_usage_fee default_high_net_usage_fee).2
      (by decide) (by decide) (by decide)
  · exact (tariff_rule_cases (19616 * 86400000000 + 12 * 3600000000)
      default_low_net_usage_fee default_high_net_usage_fee).1
      (Or.inl (by decide))

/-- The closed enumeration of Norwegian price areas from `power_cost.py`. -/
inductive PriceArea where
  | NO1
  | NO2
  | NO3
  | NO4
  | NO5
deriving DecidableEq, Repr

/-- The human-readable label attached to each `PriceArea` enum member. -/
def PriceArea.label : PriceArea → String
  | .NO1 => "Oslo / Øst-Norge"
  | .NO2 => "Kristiansand / Sør-Norge"
  | .NO3 => "Trondheim / Midt-Norge"
  | .NO4 => "Tromsø / Nord-Norge"
  | .NO5 => "Bergen / Vest-Norge"

/-- One hourly price interval (`ElectricityCost` dataclass of `power_cost.py`).
`time_start` and `time_end` are the instants denoted by the ISO timestamp
strings of the source (string parsing is outside the model). -/
structure ElectricityCost where
  NOK_per_kWh : ℚ
  EUR_per_kWh : ℚ
  EXR : ℚ
  time_start : ℤ
  time_end : ℤ
deriving DecidableEq, Repr

/-- The durable day-price cache: the set of files under `cache/{year}/{month}/
{day}_{area}.json`, keyed by (local day number, area), each holding the parsed
interval list, plus a count of network fetches performed so far (used to state
the no-refetch claims). -/
structure CacheState where
  cache : List ((ℤ × PriceArea) × List ElectricityCost)
  fetchCount : ℕ
deriving DecidableEq, Repr

/-- Lookup of a cache file (`os.path.exists` plus `json.load`). -/
def lookupCache : List ((ℤ × PriceArea) × List ElectricityCost) → ℤ × PriceArea →
    Option (List ElectricityCost)
  | [], _ => none
  | (k, v) :: rest, key => if k = key then some v else lookupCache rest key

/-- The external price API: `none` models a non-200 response. -/
structure PriceProvider where
  fetch : ℤ → PriceArea → Option (List ElectricityCost)

/-- `power_cost.fetch_electricity_cost` (the DayPriceCache): on a cache hit
return the cached (parsed) data and leave the state untouched; on a miss call
the provider, raise on a non-200 response, otherwise write the cache entry,
count one network fetch, and return the parsed data. -/
def fetch_electricity_cost (provider : PriceProvider) (date : ℤ) (area : PriceArea)
    (s : CacheState) : Except String (List ElectricityCost × CacheState) :=
  match lookupCache s.cache (date, area) with
  | some cached_data => .ok (cached_data, s)
  | none =>
    match provider.fetch date area with
    | some data =>
      .ok (data, { cache := ((date, area), data) :: s.cache, fetchCount := s.fetchCount + 1 })
    | none => .error "Failed to fetch data"

/-- C4: on a hit of the (local date, area) key, `fetch_electricity_cost`
returns the stored entry, contacts no provider (the fetch count is unchanged)
and leaves the cache state untouched; consequently, whatever a first call
returned, a second call with the same key returns the same value with zero
further network fetches and no state change. -/
theorem cache_hit_no_fetch (provider : PriceProvider) (date : ℤ) (area : PriceArea)
    (s : CacheState) :
    (∀ v, lookupCache s.cache (date, area) = some v →
      fetch_electricity_cost provider date area s = .ok (v, s)) ∧
    (∀ res s', fetch_electricity_cost provider date area s = .ok (res, s') →
      fetch_electricity_cost provider date area s' = .ok (res, s')) := by
  constructor
  · intro v hv
    unfold fetch_electricity_cost
    rw [hv]
  · intro res s' h
    unfold fetch_electricity_cost at h ⊢
    rcases hl : lookupCache s.cache (date, area) with _ | v
    · rw [hl] at h
      rcases hp : provider.fetch date area with _ | data
      · rw [hp] at h
        exact absurd h (by simp)
      · rw [hp] at h
        injection h with h
        injection h with h1 h2
        subst h1 h2
        have : lookupCache (((date, area), data) :: s.cache) (date, area) = some data := by
          unfold lookupCache
          rw [if_pos rfl]
        rw [this]
    · rw [hl] at h
      injection h with h
      injection h with h1 h2
      subst h1 h2
      rw [hl]

/-- Witness for `cache_hit_no_fetch`: a concrete single-entry cache for day
19615 / NO2 is hit without any fetch, and a repeated call is stable. -/
theorem cache_hit_no_fetch_witness :
    fetch_electricity_cost ⟨fun _ _ => none⟩ 19615 PriceArea.NO2
        ⟨[((19615, PriceArea.NO2), [⟨1.5, 0.13, 11.5, 0, usPerDay⟩])], 0⟩ =
      .ok ([⟨1.5, 0.13, 11.5, 0, usPerDay⟩],
        ⟨[((19615, PriceArea.NO2), [⟨1.5, 0.13, 11.5, 0, usPerDay⟩])], 0⟩) ∧
    fetch_electricity_cost ⟨fun _ _ => none⟩ 19615 PriceArea.NO2
        ⟨[((19615, PriceArea.NO2), [⟨1.5, 0.13, 11.5, 0, usPerDay⟩])], 0⟩ =
      .ok ([⟨1.5, 0.13, 11.5, 0, usPerDay⟩],
        ⟨[((19615, PriceArea.NO2), [⟨1.5, 0.13, 11.5, 0, usPerDay⟩])], 0⟩) := by
  constructor
  · exact (cache_hit_no_fetch ⟨fun _ _ => none⟩ 19615 PriceArea.NO2
      ⟨[((19615, PriceArea.NO2), [⟨1.5, 0.13, 11.5, 0, usPerDay⟩])], 0⟩).1
      [⟨1.5, 0.13, 11.5, 0, usPerDay⟩] rfl
  · exact (cache_hit_no_fetch ⟨fun _ _ => none⟩ 19615 PriceArea.NO2
      ⟨[((19615, PriceArea.NO2), [⟨1.5, 0.13, 11.5, 0, usPerDay⟩])], 0⟩).2
      [⟨1.5, 0.13, 11.5, 0, usPerDay⟩]
      ⟨[((19615, PriceArea.NO2), [⟨1.5, 0.13, 11.5, 0, usPerDay⟩])], 0⟩ rfl

/-- The adjust-and-filter loop of `fetch_electricity_cost_utc` (lines 97-105 of
`power_cost.py`): for each fetched cost, take its boundaries as UTC instants
(`astimezone(pytz.utc)` leaves the instant unchanged), keep the cost when
`time_end_utc > start_date_utc and time_start_utc <= end_date_utc`, and emit it
with the UTC-rebased boundary fields. -/
def adjustAndFilterCosts (start_date_utc end_date_utc : ℤ) :
    List ElectricityCost → List ElectricityCost
  | [] => []
  | cost :: rest =>
    let time_start_utc := cost.time_start
    let time_end_utc := cost.time_end
    if start_date_utc < time_end_utc ∧ time_start_utc ≤ end_date_utc then
      { cost with time_start := time_start_utc, time_end := time_end_utc } ::
        adjustAndFilterCosts start_date_utc end_date_utc rest
    else
      adjustAndFilterCosts start_date_utc end_date_utc rest

/-- `power_cost.fetch_electricity_cost_utc` (the UtcPriceWindow): the window of
price intervals overlapping the UTC day `date_utc`, with boundaries in UTC.
`oslo_date`, a parameter of the embedding, is the map from an instant to its
Europe/Oslo calendar day (`astimezone(oslo_tz).date()`). -/
def fetch_electricity_cost_utc (oslo_date : ℤ → ℤ) (provider : PriceProvider)
    (date_utc : ℤ) (area : PriceArea) (s : CacheState) :
    Except String (List ElectricityCost × CacheState) :=
  let start_date_utc := date_utc * usPerDay
  let end_date_utc := start_date_utc + usPerDay - usPerSecond
  let start_date_oslo := oslo_date start_date_utc
  let end_date_oslo := oslo_date end_date_utc
  match
    (if start_date_oslo = end_date_oslo then
      fetch_electricity_cost provider start_date_oslo area s
    else
      match fetch_electricity_cost provider start_date_oslo area s with
      | .ok (c1, s1) =>
        match fetch_electricity_cost provider end_date_oslo area s1 with
        | .ok (c2, s2) => .ok (c1 ++ c2, s2)
        | .error e => .error e
      | .error e => .error e)
  with
  | .ok (costs_oslo, s') =>
    .ok (adjustAndFilterCosts start_date_utc end_date_utc costs_oslo, s')
  | .error e => .error e

/-- Structure-eta: the rebuilt cost record in the loop equals the original. -/
theorem adjustAndFilterCosts_eq_filter (a b : ℤ) (L : List ElectricityCost) :
    adjustAndFilterCosts a b L =
      L.filter fun c => decide (a < c.time_end ∧ c.time_start ≤ b) := by
  induction L with
  | nil => rfl
  | cons c rest ih =>
    unfold adjustAndFilterCosts
    dsimp only
    by_cases h : a < c.time_end ∧ c.time_start ≤ b
    · rw [if_pos h, ih, List.filter_cons, if_pos (by simpa using h)]
    · rw [if_neg h, ih, List.filter_cons, if_neg (by simpa using h)]

/-- Helper: structural characterisation of `fetch_electricity_cost_utc`,
shared by several theorems below. -/
theorem fetch_utc_split (oslo_date : ℤ → ℤ) (provider : PriceProvider)
    (d : ℤ) (area : PriceArea) (s : CacheState)
    (res : List ElectricityCost) (s' : CacheState)
    (h : fetch_electricity_cost_utc oslo_date provider d area s = .ok (res, s')) :
    ∃ L1 s1, fetch_electricity_cost provider (oslo_date (d * usPerDay)) area s = .ok (L1, s1) ∧
      ((oslo_date (d * usPerDay) = oslo_date (d * usPerDay + usPerDay - usPerSecond) ∧
        s' = s1 ∧
        res = L1.filter fun c =>
          decide (d * usPerDay < c.time_end ∧ c.time_start ≤ d * usPerDay + usPerDay - usPerSecond)) ∨
       (oslo_date (d * usPerDay) ≠ oslo_date (d * usPerDay + usPerDay - usPerSecond) ∧
        ∃ L2, fetch_electricity_cost provider
            (oslo_date (d * usPerDay + usPerDay - usPerSecond)) area s1 = .ok (L2, s') ∧
          res = (L1 ++ L2).filter fun c =>
            decide (d * usPerDay < c.time_end ∧ c.time_start ≤ d * usPerDay + usPerDay - usPerSecond))) := by
  unfold fetch_electricity_cost_utc at h
  dsimp only at h
  by_cases heq : oslo_date (d * usPerDay) = oslo_date (d * usPerDay + usPerDay - usPerSecond)
  · rw [if_pos heq] at h
    rcases hf : fetch_electricity_cost provider (oslo_date (d * usPerDay)) area s with e | ⟨L1, s1⟩
    · rw [hf] at h
      exact absurd h (by simp)
    · rw [hf] at h
      injection h with h
      injection h with h1 h2
      refine ⟨L1, s1, rfl, Or.inl ⟨heq, h2.symm, ?_⟩⟩
      rw [← h1, adjustAndFilterCosts_eq_filter]
  · rw [if_neg heq] at h
    rcases hf : fetch_electricity_cost provider (oslo_date (d * usPerDay)) area s with e | ⟨L1, s1⟩
    · rw [hf] at h
      exact absurd h (by simp)
    · rw [hf] at h
      dsimp only at h
      rcases hg : fetch_electricity_cost provider
          (oslo_date (d * usPerDay + usPerDay - usPerSecond)) area s1 with e | ⟨L2, s2⟩
      · rw [hg] at h
        exact absurd h (by simp)
      · rw [hg] at h
        injection h with h
        injection h with h1 h2
        refine ⟨L1, s1, rfl, Or.inr ⟨heq, L2, by rw [hg, h2], ?_⟩⟩
        rw [← h1, adjustAndFilterCosts_eq_filter]

/-- C3: structural characterisation of `fetch_electricity_cost_utc` for UTC
day `d`: with `startUtc = d@00:00:00Z` and `endUtc = startUtc + 24h - 1s`, it
resolves the Oslo dates of `startUtc` and `endUtc`, fetches the first date's
set, fetches and concatenates the second exactly when the two dates differ,
and returns, in fetched order, exactly the intervals (with UTC boundaries)
satisfying `intervalEnd > startUtc` and `intervalStart ≤ endUtc`. -/
theorem fetch_utc_structure (oslo_date : ℤ → ℤ) (provider : PriceProvider)
    (d : ℤ) (area : PriceArea) (s : CacheState)
    (res : List ElectricityCost) (s' : CacheState)
    (h : fetch_electricity_cost_utc oslo_date provider d area s = .ok (res, s')) :
    ∃ L1 s1, fetch_electricity_cost provider (oslo_date (d * usPerDay)) area s = .ok (L1, s1) ∧
      ((oslo_date (d * usPerDay) = oslo_date (d * usPerDay + usPerDay - usPerSecond) ∧
        s' = s1 ∧
        res = L1.filter fun c =>
          decide (d * usPerDay < c.time_end ∧ c.time_start ≤ d * usPerDay + usPerDay - usPerSecond)) ∨
       (oslo_date (d * usPerDay) ≠ oslo_date (d * usPerDay + usPerDay - usPerSecond) ∧
        ∃ L2, fetch_electricity_cost provider
            (oslo_date (d * usPerDay + usPerDay - usPerSecond)) area s1 = .ok (L2, s') ∧
          res = (L1 ++ L2).filter fun c =>
            decide (d * usPerDay < c.time_end ∧ c.time_start ≤ d * usPerDay + usPerDay - usPerSecond))) :=
  fetch_utc_split oslo_date provider d area s res s' h

/-- Test local-date map used by concrete instances: a publication time zone
whose calendar days coincide with UTC days (offset zero). -/
def flatLocalDate (t : ℤ) : ℤ := t / usPerDay

/-- Test price interval covering the whole UTC day 19615 (2023-09-15). -/
def testCostA : ElectricityCost :=
  ⟨1.5, 0.13, 11.5, 1694736000000000, 1694822400000000⟩

/-- Test provider publishing `testCostA` for local day 19615 in NO2. -/
def testProvider : PriceProvider :=
  ⟨fun d a => if d = 19615 ∧ a = PriceArea.NO2 then some [testCostA] else none⟩

/-- Witness for `fetch_utc_structure`: the concrete single-local-day fetch of
UTC day 19615 over `testProvider` from an empty cache. -/
theorem fetch_utc_structure_witness :
    ∃ L1 s1, fetch_electricity_cost testProvider (flatLocalDate (19615 * usPerDay))
        PriceArea.NO2 ⟨[], 0⟩ = .ok (L1, s1) ∧
      ((flatLocalDate (19615 * usPerDay) =
          flatLocalDate (19615 * usPerDay + usPerDay - usPerSecond) ∧
        (⟨[((19615, PriceArea.NO2), [testCostA])], 1⟩ : CacheState) = s1 ∧
        [testCostA] = L1.filter fun c =>
          decide (19615 * usPerDay < c.time_end ∧
            c.time_start ≤ 19615 * usPerDay + usPerDay - usPerSecond)) ∨
       (flatLocalDate (19615 * usPerDay) ≠
          flatLocalDate (19615 * usPerDay + usPerDay - usPerSecond) ∧
        ∃ L2, fetch_electricity_cost testProvider
            (flatLocalDate (19615 * usPerDay + usPerDay - usPerSecond))
            PriceArea.NO2 s1 =
            .ok (L2, ⟨[((19615, PriceArea.NO2), [testCostA])], 1⟩) ∧
          [testCostA] = (L1 ++ L2).filter fun c =>
            decide (19615 * usPerDay < c.time_end ∧
              c.time_start ≤ 19615 * usPerDay + usPerDay - usPerSecond))) :=
  fetch_utc_structure flatLocalDate testProvider 19615 PriceArea.NO2 ⟨[], 0⟩
    [testCostA] ⟨[((19615, PriceArea.NO2), [testCostA])], 1⟩ rfl

/-- `intervalChain a L b`: the intervals of `L`, in order, tile the half-open
span `[a, b)` exactly: each has positive length, starts where its predecessor
ended, the first starts at `a` and the last ends at `b`.  This is the spec's
invariant for one local day's fetched set: contiguous, non-overlapping,
ordered by start, exactly partitioning the day. -/
def intervalChain : ℤ → List ElectricityCost → ℤ → Prop
  | a, [], b => a = b
  | a, c :: rest, b => c.time_start = a ∧ a < c.time_end ∧ intervalChain c.time_end rest b

/-- A fetched set for local day `d` partitions exactly the UTC span of the
instants whose local calendar day is `d`. -/
def partitionsLocalDay (oslo_date : ℤ → ℤ) (L : List ElectricityCost) (d : ℤ) : Prop :=
  ∃ A B, intervalChain A L B ∧ ∀ t, (A ≤ t ∧ t < B) ↔ oslo_date t = d

/-- All price data reachable from a cache state and a provider (for one area)
satisfies the local-day partition invariant. -/
def goodPrices (oslo_date : ℤ → ℤ) (area : PriceArea) (provider : PriceProvider)
    (s : CacheState) : Prop :=
  (∀ d L, lookupCache s.cache (d, area) = some L → partitionsLocalDay oslo_date L d) ∧
  (∀ d L, provider.fetch d area = some L → partitionsLocalDay oslo_date L d)

theorem intervalChain_append {a b c : ℤ} {L1 L2 : List ElectricityCost}
    (h1 : intervalChain a L1 b) (h2 : intervalChain b L2 c) :
    intervalChain a (L1 ++ L2) c := by
  induction L1 generalizing a with
  | nil =>
    have hab : a = b := h1
    rw [List.nil_append, hab]
    exact h2
  | cons x rest ih =>
    obtain ⟨hx, hlt, hrest⟩ := h1
    exact ⟨hx, hlt, ih hrest⟩

theorem intervalChain_le {a b : ℤ} {L : List ElectricityCost}
    (h : intervalChain a L b) : a ≤ b := by
  induction L generalizing a with
  | nil => exact le_of_eq h
  | cons x rest ih =>
    obtain ⟨hx, hlt, hrest⟩ := h
    have := ih hrest
    omega

theorem intervalChain_mem_bounds {a b : ℤ} {L : List ElectricityCost}
    (h : intervalChain a L b) {c : ElectricityCost} (hc : c ∈ L) :
    a ≤ c.time_start ∧ c.time_start < c.time_end ∧ c.time_end ≤ b := by
  induction L generalizing a with
  | nil => cases hc
  | cons x rest ih =>
    obtain ⟨hx, hlt, hrest⟩ := h
    rcases List.mem_cons.mp hc with rfl | hc
    · have := intervalChain_le hrest
      omega
    · have := ih hrest hc
      omega

theorem intervalChain_cover {a b t : ℤ} {L : List ElectricityCost}
    (h : intervalChain a L b) (h1 : a ≤ t) (h2 : t < b) :
    ∃ c ∈ L, c.time_start ≤ t ∧ t < c.time_end := by
  induction L generalizing a with
  | nil =>
    exfalso
    have hab : a = b := h
    omega
  | cons x rest ih =>
    obtain ⟨hx, hlt, hrest⟩ := h
    by_cases hcase : t < x.time_end
    · exact ⟨x, List.mem_cons_self x rest, by omega, hcase⟩
    · obtain ⟨c, hc, hcc⟩ := ih hrest (by omega)
      exact ⟨c, List.mem_cons_of_mem x hc, hcc⟩

theorem intervalChain_unique {a b t : ℤ} {L : List ElectricityCost}
    (h : intervalChain a L b) {c c' : ElectricityCost}
    (hc : c ∈ L) (hc' : c' ∈ L)
    (hct : c.time_start ≤ t ∧ t < c.time_end)
    (hct' : c'.time_start ≤ t ∧ t < c'.time_end) : c = c' := by
  induction L generalizing a with
  | nil => cases hc
  | cons x rest ih =>
    obtain ⟨hx, hlt, hrest⟩ := h
    rcases List.mem_cons.mp hc with hcx | hcr
    · rcases List.mem_cons.mp hc' with hcx' | hcr'
      · rw [hcx, hcx']
      · exfalso
        have hb := intervalChain_mem_bounds hrest hcr'
        rw [hcx] at hct
        omega
    · rcases List.mem_cons.mp hc' with hcx' | hcr'
      · exfalso
        have hb := intervalChain_mem_bounds hrest hcr
        rw [hcx'] at hct'
        omega
      · exact ih hrest hcr hcr'

/-- The DayPriceCache returns partition-invariant data and preserves the
invariant of the cache state. -/
theorem fetch_good {oslo_date : ℤ → ℤ} {area : PriceArea} {provider : PriceProvider}
    {s : CacheState} (hgood : goodPrices oslo_date area provider s)
    {d : ℤ} {L : List ElectricityCost} {s1 : CacheState}
    (h : fetch_electricity_cost provider d area s = .ok (L, s1)) :
    partitionsLocalDay oslo_date L d ∧ goodPrices oslo_date area provider s1 := by
  unfold fetch_electricity_cost at h
  rcases hl : lookupCache s.cache (d, area) with _ | v
  · rw [hl] at h
    rcases hp : provider.fetch d area with _ | data
    · rw [hp] at h
      exact absurd h (by simp)
    · rw [hp] at h
      injection h with h
      injection h with h1 h2
      refine ⟨?_, ?_, ?_⟩
      · rw [← h1]
        exact hgood.2 d data hp
      · intro d' L' hl'
        rw [← h2] at hl'
        unfold lookupCache at hl'
        by_cases hk : ((d, area) : ℤ × PriceArea) = (d', area)
        · rw [if_pos hk] at hl'
          injection hl' with hl'
          injection hk with hd ha
          rw [← hl', ← hd]
          exact hgood.2 d data hp
        · rw [if_neg hk] at hl'
          exact hgood.1 d' L' hl'
      · exact hgood.2
  · rw [hl] at h
    injection h with h
    injection h with h1 h2
    rw [← h1, ← h2]
    exact ⟨hgood.1 d v hl, hgood⟩

/-- Inside a chain-tiled span, each instant of the requested window lies in
exactly one interval of the filtered window. -/
theorem chain_filter_unique {L : List ElectricityCost} {A B startUtc endUtc t : ℤ}
    (hch : intervalChain A L B) (hA : A ≤ t) (hB : t < B)
    (h1 : startUtc ≤ t) (h2 : t ≤ endUtc) :
    ∃! c, c ∈ (L.filter fun c => decide (startUtc < c.time_end ∧ c.time_start ≤ endUtc)) ∧
      c.time_start ≤ t ∧ t < c.time_end := by
  obtain ⟨c, hc, hcs, hce⟩ := intervalChain_cover hch hA hB
  refine ⟨c, ⟨?_, hcs, hce⟩, ?_⟩
  · rw [List.mem_filter]
    refine ⟨hc, ?_⟩
    simp only [decide_eq_true_eq]
    omega
  · rintro c' ⟨hc'f, hct'⟩
    have hc' : c' ∈ L := (List.mem_filter.mp hc'f).1
    exact intervalChain_unique hch hc' hc hct' ⟨hcs, hce⟩

/-- C2: day coverage of the UTC price window.  If the local-date map is
monotone and a UTC day spans at most two local days, and every price set
obtainable from the cache or the provider partitions its local day exactly
(contiguous, non-overlapping, ordered, start < end), then the interval set
returned by `fetch_electricity_cost_utc` for a UTC day `d` covers every
instant of `[startUtc, endUtc]` with no gaps and no overlaps: each such
instant lies in exactly one returned interval. -/
theorem fetch_utc_day_coverage (oslo_date : ℤ → ℤ) (provider : PriceProvider)
    (d : ℤ) (area : PriceArea) (s : CacheState)
    (res : List ElectricityCost) (s' : CacheState)
    (hmono : ∀ t1 t2 : ℤ, t1 ≤ t2 → oslo_date t1 ≤ oslo_date t2)
    (hstep : oslo_date (d * usPerDay + usPerDay - usPerSecond) ≤ oslo_date (d * usPerDay) + 1)
    (hgood : goodPrices oslo_date area provider s)
    (hfetch : fetch_electricity_cost_utc oslo_date provider d area s = .ok (res, s'))
    (t : ℤ) (ht1 : d * usPerDay ≤ t) (ht2 : t ≤ d * usPerDay + usPerDay - usPerSecond) :
    ∃! c, c ∈ res ∧ c.time_start ≤ t ∧ t < c.time_end := by
  obtain ⟨L1, s1, hf1, hcase⟩ := fetch_utc_split oslo_date provider d area s res s' hfetch
  obtain ⟨hpart1, hgood1⟩ := fetch_good hgood hf1
  rcases hcase with ⟨heq, hs', hres⟩ | ⟨hne, L2, hf2, hres⟩
  · obtain ⟨A, B, hch, hiff⟩ := hpart1
    have hstart := (hiff (d * usPerDay)).mpr rfl
    have hend := (hiff (d * usPerDay + usPerDay - usPerSecond)).mpr heq.symm
    have hmid : oslo_date t = oslo_date (d * usPerDay) := by
      have l1 := hmono _ _ ht1
      have l2 := hmono _ _ ht2
      omega
    have htAB : A ≤ t ∧ t < B := (hiff t).mpr hmid
    rw [hres]
    exact chain_filter_unique hch htAB.1 htAB.2 ht1 ht2
  · obtain ⟨hpart2, hgood2⟩ := fetch_good hgood1 hf2
    obtain ⟨A, B, hch1, hiff1⟩ := hpart1
    obtain ⟨A2, B2, hch2, hiff2⟩ := hpart2
    have hstart := (hiff1 (d * usPerDay)).mpr rfl
    have hend := (hiff2 (d * usPerDay + usPerDay - usPerSecond)).mpr rfl
    have hSE : oslo_date (d * usPerDay) ≤ oslo_date (d * usPerDay + usPerDay - usPerSecond) :=
      hmono _ _ (by omega)
    have hE : oslo_date (d * usPerDay + usPerDay - usPerSecond) = oslo_date (d * usPerDay) + 1 := by
      omega
    have hA : oslo_date A = oslo_date (d * usPerDay) :=
      (hiff1 A).mp ⟨le_refl A, by omega⟩
    have hA2 : oslo_date A2 = oslo_date (d * usPerDay + usPerDay - usPerSecond) :=
      (hiff2 A2).mp ⟨le_refl A2, by omega⟩
    have hBA2 : B = A2 := by
      by_contra hne2
      rcases lt_or_gt_of_ne hne2 with hlt | hgt
      · have l1 : oslo_date (d * usPerDay) ≤ oslo_date B := hmono _ _ (by omega)
        have l2 : oslo_date B ≤ oslo_date (d * usPerDay + usPerDay - usPerSecond) :=
          hmono _ _ (by omega)
        by_cases hb : oslo_date B = oslo_date (d * usPerDay)
        · have := (hiff1 B).mpr hb
          omega
        · have hbE : oslo_date B = oslo_date (d * usPerDay + usPerDay - usPerSecond) := by
            omega
          have := (hiff2 B).mpr hbE
          omega
      · have hge : A ≤ A2 := by
          by_contra hA2A
          have := hmono A2 A (by omega)
          omega
        have := (hiff1 A2).mp ⟨hge, hgt⟩
        omega
    have hch2' : intervalChain B L2 B2 := by
      rw [hBA2]
      exact hch2
    have hch := intervalChain_append hch1 hch2'
    rw [hres]
    exact chain_filter_unique hch (by omega) (by omega) ht1 ht2

/-- Test local-date map stepping exactly at the UTC boundaries of day 19615,
i.e. a publication zone whose day 19615 coincides with the UTC day. -/
def stepLocalDate (t : ℤ) : ℤ :=
  if t < 1694736000000000 then 19614
  else if t < 1694822400000000 then 19615
  else 19616

/-- The single test interval partitions local day 19615 of `stepLocalDate`. -/
theorem testCostA_partitions :
    partitionsLocalDay stepLocalDate [testCostA] 19615 := by
  refine ⟨1694736000000000, 1694822400000000, ⟨rfl, by decide, rfl⟩, ?_⟩
  intro t
  unfold stepLocalDate
  split_ifs <;> constructor <;> intro h <;> omega

/-- Witness for `fetch_utc_day_coverage`: over `testProvider` and an empty
cache, noon of UTC day 19615 lies in exactly one interval of the returned
window. -/
theorem fetch_utc_day_coverage_witness :
    ∃! c, c ∈ [testCostA] ∧ c.time_start ≤ 1694779200000000 ∧
      1694779200000000 < c.time_end :=
  fetch_utc_day_coverage stepLocalDate testProvider 19615 PriceArea.NO2 ⟨[], 0⟩
    [testCostA] ⟨[((19615, PriceArea.NO2), [testCostA])], 1⟩
    (by
      intro t1 t2 h
      unfold stepLocalDate
      split_ifs <;> omega)
    (by decide)
    ⟨by
      intro d L h
      simp [lookupCache] at h,
     by
      intro d L h
      unfold testProvider at h
      dsimp only at h
      split_ifs at h with hc
      injection h with h
      rw [← h, hc.1]
      exact testCostA_partitions⟩
    rfl 1694779200000000 (by decide) (by decide)

/-- One incremental energy delivery (`zaptech_api.EnergyDetail`), with its
timestamp already parsed and normalised to UTC (`parser.parse` followed by
`astimezone(utc)` in `app.py` line 39-42). -/
structure EnergyDetail where
  Timestamp : ℤ
  Energy : ℚ
deriving DecidableEq, Repr

/-- A charging session: its id and energy details.  The source's further
metadata fields (device, firmware, signatures, ...) are not consumed by the
cost pipeline and are omitted. -/
structure ChargingSession where
  Id : String
  EnergyDetails : List EnergyDetail
deriving DecidableEq, Repr

/-- The output record (`app.ChargingSessionEnergy` dataclass), rendered by the
CLI as one CSV line in field order. -/
structure ChargingSessionEnergy where
  SessionId : String
  Timestamp : ℤ
  Energy : ℚ
  EnergyUsageFee : ℚ
  NetUsageFee : ℚ
  EnergyCost : ℚ
  NetUsageCost : ℚ
  TotalCostNoVat : ℚ
  TotalCostWithVAT : ℚ
  CostCurrency : String
deriving DecidableEq, Repr

/-- The record construction of `app.py` lines 64-99 for one energy detail and
its applicable cost: `energy_cost = Energy * NOK_per_kWh`, the tariff fee per
kWh from `net_usage_fee_per_kwh`, `net_usage_fee = Energy * fee`, totals
without and with the fixed 25% VAT, currency `"NOK"`.  Note the source
assigns `net_usage_fee` (not the per-kWh rate) to both the `NetUsageFee` and
`NetUsageCost` fields. -/
def mkChargingSessionEnergy (sessionId : String) (low high : ℚ)
    (applicable_cost : ElectricityCost) (energy : EnergyDetail) :
    ChargingSessionEnergy :=
  let energy_cost := energy.Energy * applicable_cost.NOK_per_kWh
  let fee := net_usage_fee_per_kwh energy.Timestamp low high
  let net_usage_fee := energy.Energy * fee
  let total_cost_without_vat := energy_cost + net_usage_fee
  let total_cost_with_vat := total_cost_without_vat * 1.25
  { SessionId := sessionId
    Timestamp := energy.Timestamp
    Energy := energy.Energy
    EnergyUsageFee := applicable_cost.NOK_per_kWh
    NetUsageFee := net_usage_fee
    EnergyCost := energy_cost
    NetUsageCost := net_usage_fee
    TotalCostNoVat := total_cost_without_vat
    TotalCostWithVAT := total_cost_with_vat
    CostCurrency := "NOK" }

/-- The linear scan of `app.py` lines 51-58: the first cost interval whose
half-open range `start <= instant < end` contains the instant, else `none`. -/
def findApplicableCost (t : ℤ) : List ElectricityCost → Option ElectricityCost
  | [] => none
  | cost :: rest =>
    if cost.time_start ≤ t ∧ t < cost.time_end then some cost
    else findApplicableCost t rest

/-- The mutable state threaded through one pipeline run: the per-run `costs`
dictionary of `app.py` (UTC date to window), and the durable cache state used
by `fetch_electricity_cost_utc`. -/
structure PipelineState where
  costs : List (ℤ × List ElectricityCost)
  cacheState : CacheState
deriving DecidableEq, Repr

/-- Lookup in the per-run `costs` dictionary (`energy_date in costs`). -/
def lookupCosts : List (ℤ × List ElectricityCost) → ℤ → Option (List ElectricityCost)
  | [], _ => none
  | (k, v) :: rest, key => if k = key then some v else lookupCosts rest key

/-- Lines 45-48 of `app.py`: resolve the price window of one UTC date through
the per-run dictionary, calling `fetch_electricity_cost_utc` on a miss. -/
def getDayCosts (oslo_date : ℤ → ℤ) (provider : PriceProvider) (area : PriceArea)
    (st : PipelineState) (energy_date : ℤ) :
    Except String (List ElectricityCost × PipelineState) :=
  match lookupCosts st.costs energy_date with
  | some window => .ok (window, st)
  | none =>
    match fetch_electricity_cost_utc oslo_date provider energy_date area st.cacheState with
    | .ok (window, cs) => .ok (window, ⟨(energy_date, window) :: st.costs, cs⟩)
    | .error e => .error e

/-- The inner loop of `app.py:get_charging_session_energy` over one session's
`EnergyDetails`: resolve the UTC day's window, match the instant, on a miss
record a diagnostic (the printed skip message, modelled as the session id and
instant) and continue, on a match emit the cost record.  A provider failure
aborts the run (`Except.error`). -/
def runEnergyDetails (oslo_date : ℤ → ℤ) (provider : PriceProvider) (area : PriceArea)
    (low high : ℚ) (sessionId : String) :
    List EnergyDetail → PipelineState →
    Except String (List ChargingSessionEnergy × List (String × ℤ) × PipelineState)
  | [], st => .ok ([], [], st)
  | energy :: rest, st =>
    match getDayCosts oslo_date provider area st (dayOf energy.Timestamp) with
    | .error e => .error e
    | .ok (window, st1) =>
      match findApplicableCost energy.Timestamp window with
      | none =>
        match runEnergyDetails oslo_date provider area low high sessionId rest st1 with
        | .error e => .error e
        | .ok (records, diags, st2) => .ok (records, (sessionId, energy.Timestamp) :: diags, st2)
      | some applicable_cost =>
        match runEnergyDetails oslo_date provider area low high sessionId rest st1 with
        | .error e => .error e
        | .ok (records, diags, st2) =>
          .ok (mkChargingSessionEnergy sessionId low high applicable_cost energy :: records,
            diags, st2)

/-- `app.py:get_charging_session_energy`, from the point where the session
history is available: iterate sessions and their energy details, producing
the cost records in emission order together with the skip diagnostics and the
final caches.  (The source is a generator; the model returns the full emitted
sequence.  Authentication and history retrieval are external collaborators
and appear as the `sessions` input.) -/
def get_charging_session_energy (oslo_date : ℤ → ℤ) (provider : PriceProvider)
    (area : PriceArea) (low high : ℚ) :
    List ChargingSession → PipelineState →
    Except String (List ChargingSessionEnergy × List (String × ℤ) × PipelineState)
  | [], st => .ok ([], [], st)
  | session :: rest, st =>
    match runEnergyDetails oslo_date provider area low high session.Id
        session.EnergyDetails st with
    | .error e => .error e
    | .ok (records, diags, st1) =>
      match get_charging_session_energy oslo_date provider area low high rest st1 with
      | .error e => .error e
      | .ok (records2, diags2, st2) => .ok (records ++ records2, diags ++ diags2, st2)

/-- Every record emitted while processing one session's details is built by
`mkChargingSessionEnergy` from that session's id, the configured rates, some
matched cost and some energy detail. -/
theorem mem_runEnergyDetails {oslo_date : ℤ → ℤ} {provider : PriceProvider}
    {area : PriceArea} {low high : ℚ} {sessionId : String}
    {details : List EnergyDetail} {st : PipelineState}
    {records : List ChargingSessionEnergy} {diags : List (String × ℤ)}
    {st' : PipelineState}
    (h : runEnergyDetails oslo_date provider area low high sessionId details st =
      .ok (records, diags, st'))
    {r : ChargingSessionEnergy} (hr : r ∈ records) :
    ∃ cost energy, r = mkChargingSessionEnergy sessionId low high cost energy := by
  induction details generalizing st records diags st' with
  | nil =>
    unfold runEnergyDetails at h
    injection h with h
    injection h with h1 h2
    rw [← h1] at hr
    cases hr
  | cons energy rest ih =>
    unfold runEnergyDetails at h
    rcases hg : getDayCosts oslo_date provider area st (dayOf energy.Timestamp) with
      e | ⟨window, st1⟩
    · rw [hg] at h
      exact absurd h (by simp)
    · rw [hg] at h
      dsimp only at h
      rcases hfind : findApplicableCost energy.Timestamp window with _ | applicable_cost
      · rw [hfind] at h
        dsimp only at h
        rcases hrec : runEnergyDetails oslo_date provider area low high sessionId rest st1 with
          e | ⟨records0, diags0, st2⟩
        · rw [hrec] at h
          exact absurd h (by simp)
        · rw [hrec] at h
          injection h with h
          injection h with h1 h2
          rw [← h1] at hr
          exact ih hrec hr
      · rw [hfind] at h
        dsimp only at h
        rcases hrec : runEnergyDetails oslo_date provider area low high sessionId rest st1 with
          e | ⟨records0, diags0, st2⟩
        · rw [hrec] at h
          exact absurd h (by simp)
        · rw [hrec] at h
          injection h with h
          injection h with h1 h2
          rw [← h1] at hr
          rcases List.mem_cons.mp hr with hhead | htail
          · exact ⟨applicable_cost, energy, hhead⟩
          · exact ih hrec htail

/-- Every record emitted by a pipeline run is built by
`mkChargingSessionEnergy` from some session id, matched cost and detail. -/
theorem mem_run_records {oslo_date : ℤ → ℤ} {provider : PriceProvider}
    {area : PriceArea} {low high : ℚ} {sessions : List ChargingSession}
    {st : PipelineState} {records : List ChargingSessionEnergy}
    {diags : List (String × ℤ)} {st' : PipelineState}
    (h : get_charging_session_energy oslo_date provider area low high sessions st =
      .ok (records, diags, st'))
    {r : ChargingSessionEnergy} (hr : r ∈ records) :
    ∃ sessionId cost energy, r = mkChargingSessionEnergy sessionId low high cost energy := by
  induction sessions generalizing st records diags st' with
  | nil =>
    unfold get_charging_session_energy at h
    injection h with h
    injection h with h1 h2
    rw [← h1] at hr
    cases hr
  | cons session rest ih =>
    unfold get_charging_session_energy at h
    rcases hs : runEnergyDetails oslo_date provider area low high session.Id
        session.EnergyDetails st with e | ⟨records1, diags1, st1⟩
    · rw [hs] at h
      exact absurd h (by simp)
    · rw [hs] at h
      dsimp only at h
      rcases hrest : get_charging_session_energy oslo_date provider area low high rest st1 with
        e | ⟨records2, diags2, st2⟩
      · rw [hrest] at h
        exact absurd h (by simp)
      · rw [hrest] at h
        injection h with h
        injection h with h1 h2
        rw [← h1] at hr
        rcases List.mem_append.mp hr with h1m | h2m
        · obtain ⟨cost, energy, hre⟩ := mem_runEnergyDetails hs h1m
          exact ⟨session.Id, cost, energy, hre⟩
        · exact ih hrest h2m

/-- C9: in every emitted record, `TotalCostNoVat` is `EnergyCost` plus
`NetUsageCost`, and `TotalCostWithVAT` is `TotalCostNoVat * 1.25` exactly;
the VAT factor is the literal `1.25` of the source, independent of every
configurable input. -/
theorem totals_vat_invariant (oslo_date : ℤ → ℤ) (provider : PriceProvider)
    (area : PriceArea) (low high : ℚ) (sessions : List ChargingSession)
    (st : PipelineState) (records : List ChargingSessionEnergy)
    (diags : List (String × ℤ)) (st' : PipelineState)
    (h : get_charging_session_energy oslo_date provider area low high sessions st =
      .ok (records, diags, st'))
    (r : ChargingSessionEnergy) (hr : r ∈ records) :
    r.TotalCostNoVat = r.EnergyCost + r.NetUsageCost ∧
    r.TotalCostWithVAT = r.TotalCostNoVat * 1.25 := by
  obtain ⟨sessionId, cost, energy, hre⟩ := mem_run_records h hr
  rw [hre]
  exact ⟨rfl, rfl⟩

/-- The Europe/Oslo UTC offset during 2023 (the `pytz` zone data): CEST (+2h)
from 2023-03-26T01:00:00Z to 2023-10-29T01:00:00Z, CET (+1h) otherwise in
2023.  The concrete scenarios below only use instants of 2023. -/
def osloUtcOffset2023 (t : ℤ) : ℤ :=
  if 1679792400000000 ≤ t ∧ t < 1698541200000000 then 7200000000 else 3600000000

/-- Europe/Oslo local wall-clock representation of a 2023 UTC instant. -/
def osloLocalInstant2023 (t : ℤ) : ℤ := t + osloUtcOffset2023 t

/-- The Europe/Oslo calendar date of a 2023 UTC instant, i.e.
`t.astimezone(oslo_tz).date()`. -/
def osloLocalDate2023 (t : ℤ) : ℤ := osloLocalInstant2023 t / usPerDay

/-- Fixture: the single price interval published for Oslo day 19615
(local Friday 2023-09-15, `[2023-09-14T22:00Z, 2023-09-15T22:00Z)`). -/
def costFriday : ElectricityCost :=
  ⟨1.5, 0.13, 11.5, 1694728800000000, 1694815200000000⟩

/-- Fixture: the single price interval published for Oslo day 19616
(local Saturday 2023-09-16). -/
def costSaturday : ElectricityCost :=
  ⟨1.2, 0.10, 11.5, 1694815200000000, 1694901600000000⟩

/-- Fixture provider publishing `costFriday` and `costSaturday` for NO2. -/
def provider2023 : PriceProvider :=
  ⟨fun d a =>
    if d = 19615 ∧ a = PriceArea.NO2 then some [costFriday]
    else if d = 19616 ∧ a = PriceArea.NO2 then some [costSaturday]
    else none⟩

/-- The energy sample of the end-to-end scenario: 2023-09-15T10:30:00Z,
10 kWh. -/
def run7detail : EnergyDetail := ⟨1694773800000000, 10⟩

/-- The record the pipeline emits for `run7detail` with default rates. -/
def run7record : ChargingSessionEnergy :=
  mkChargingSessionEnergy "session1" default_low_net_usage_fee
    default_high_net_usage_fee costFriday run7detail

/-- The caches after one run over UTC day 19615 with `provider2023`. -/
def finalState2023 : PipelineState :=
  ⟨[(19615, [costFriday, costSaturday])],
   ⟨[((19616, PriceArea.NO2), [costSaturday]),
     ((19615, PriceArea.NO2), [costFriday])], 2⟩⟩

/-- C7 (counterexample): the end-to-end scenario (NO2, default tariff rates,
one sample at 2023-09-15T10:30:00Z with 10 kWh, matched unit price 1.50,
weekday daytime) run on the code yields `energyCost = 15.0` but
`totalExclTax = 18.059`, not `45.59`, and `totalInclTax = 22.57375`, not
`56.9875`: the claim's totals are false on the code at this input. -/
theorem scenario_totals_counterexample :
    get_charging_session_energy osloLocalDate2023 provider2023 PriceArea.NO2
        default_low_net_usage_fee default_high_net_usage_fee
        [⟨"session1", [run7detail]⟩] ⟨[], ⟨[], 0⟩⟩ =
      .ok ([run7record], [], finalState2023) ∧
    run7record.EnergyCost = 15 ∧
    run7record.TotalCostNoVat ≠ 4559/100 ∧
    run7record.TotalCostWithVAT ≠ 569875/10000 := by
  refine ⟨rfl, ?_, ?_, ?_⟩
  · have h : run7record.EnergyCost = (10 : ℚ) * 1.5 := rfl
    rw [h]
    norm_num
  · have h : run7record.TotalCostNoVat = (10 : ℚ) * 1.5 + 10 * 0.3059 := rfl
    rw [h]
    norm_num
  · have h : run7record.TotalCostWithVAT = ((10 : ℚ) * 1.5 + 10 * 0.3059) * 1.25 := rfl
    rw [h]
    norm_num

/-- C7 (amended): the same end-to-end scenario with the totals the code
actually produces: `energyCost = 15.0`, `distributionFee = 3.059`,
`totalExclTax = 18.059`, `totalInclTax = 22.57375`. -/
theorem scenario_totals :
    get_charging_session_energy osloLocalDate2023 provider2023 PriceArea.NO2
        default_low_net_usage_fee default_high_net_usage_fee
        [⟨"session1", [run7detail]⟩] ⟨[], ⟨[], 0⟩⟩ =
      .ok ([run7record], [], finalState2023) ∧
    run7record.EnergyCost = 15 ∧
    run7record.NetUsageCost = 3059/1000 ∧
    run7record.TotalCostNoVat = 18059/1000 ∧
    run7record.TotalCostWithVAT = 2257375/100000 := by
  refine ⟨rfl, ?_, ?_, ?_, ?_⟩
  · have h : run7record.EnergyCost = (10 : ℚ) * 1.5 := rfl
    rw [h]
    norm_num
  · have h : run7record.NetUsageCost = (10 : ℚ) * 0.3059 := rfl
    rw [h]
    norm_num
  · have h : run7record.TotalCostNoVat = (10 : ℚ) * 1.5 + 10 * 0.3059 := rfl
    rw [h]
    norm_num
  · have h : run7record.TotalCostWithVAT = ((10 : ℚ) * 1.5 + 10 * 0.3059) * 1.25 := rfl
    rw [h]
    norm_num

/-- Witness for `totals_vat_invariant` on the concrete scenario record. -/
theorem totals_vat_invariant_witness :
    run7record.TotalCostNoVat = run7record.EnergyCost + run7record.NetUsageCost ∧
    run7record.TotalCostWithVAT = run7record.TotalCostNoVat * 1.25 :=
  totals_vat_invariant osloLocalDate2023 provider2023 PriceArea.NO2
    default_low_net_usage_fee default_high_net_usage_fee
    [⟨"session1", [run7detail]⟩] ⟨[], ⟨[], 0⟩⟩ [run7record] [] finalState2023
    rfl run7record (List.mem_singleton.mpr rfl)

/-- C6 (counterexample): in the emitted scenario record the `NetUsageFee`
field (`NetUsageFee` CSV column) is `10 × 0.3059 = 3.059`, the total net
usage fee, not the selected per-unit rate `0.3059`: the claim that the
`NetUsageFee` column carries the per-unit tariff rate is false on the code. -/
theorem net_usage_fee_field_counterexample :
    get_charging_session_energy osloLocalDate2023 provider2023 PriceArea.NO2
        default_low_net_usage_fee default_high_net_usage_fee
        [⟨"session1", [run7detail]⟩] ⟨[], ⟨[], 0⟩⟩ =
      .ok ([run7record], [], finalState2023) ∧
    net_usage_fee_per_kwh run7record.Timestamp default_low_net_usage_fee
        default_high_net_usage_fee = default_high_net_usage_fee ∧
    run7record.NetUsageFee ≠ default_high_net_usage_fee := by
  refine ⟨rfl, rfl, ?_⟩
  have h : run7record.NetUsageFee = (10 : ℚ) * 0.3059 := rfl
  have h2 : default_high_net_usage_fee = (0.3059 : ℚ) := rfl
  rw [h, h2]
  norm_num

/-- C6 (amended): in every emitted record the `NetUsageFee` field equals the
`NetUsageCost` field, both being `energyKWh` times the selected per-unit
tariff rate; the per-unit rate itself is not emitted (the `EnergyUsageFee`
field carries the energy unit price instead). -/
theorem net_usage_fee_field_eq_cost (oslo_date : ℤ → ℤ) (provider : PriceProvider)
    (area : PriceArea) (low high : ℚ) (sessions : List ChargingSession)
    (st : PipelineState) (records : List ChargingSessionEnergy)
    (diags : List (String × ℤ)) (st' : PipelineState)
    (h : get_charging_session_energy oslo_date provider area low high sessions st =
      .ok (records, diags, st'))
    (r : ChargingSessionEnergy) (hr : r ∈ records) :
    r.NetUsageFee = r.NetUsageCost ∧
    r.NetUsageCost = r.Energy * net_usage_fee_per_kwh r.Timestamp low high ∧
    r.EnergyCost = r.Energy * r.EnergyUsageFee := by
  obtain ⟨sessionId, cost, energy, hre⟩ := mem_run_records h hr
  rw [hre]
  exact ⟨rfl, rfl, rfl⟩

/-- Witness for `net_usage_fee_field_eq_cost` on the scenario record. -/
theorem net_usage_fee_field_eq_cost_witness :
    run7record.NetUsageFee = run7record.NetUsageCost ∧
    run7record.NetUsageCost = run7record.Energy *
      net_usage_fee_per_kwh run7record.Timestamp default_low_net_usage_fee
        default_high_net_usage_fee ∧
    run7record.EnergyCost = run7record.Energy * run7record.EnergyUsageFee :=
  net_usage_fee_field_eq_cost osloLocalDate2023 provider2023 PriceArea.NO2
    default_low_net_usage_fee default_high_net_usage_fee
    [⟨"session1", [run7detail]⟩] ⟨[], ⟨[], 0⟩⟩ [run7record] [] finalState2023
    rfl run7record (List.mem_singleton.mpr rfl)

/-- Modelled from the spec (§4.4): the TariffCalculator rule applied to a
LOCAL wall-clock instant - low rate on Saturday/Sunday or with time-of-day
outside `[06:00:00, 22:00:00)`, high rate otherwise.  The claim reads the
source as evaluating this rule on the billing-zone local time; the source
actually evaluates its rule on the UTC instant, which
`tariff_local_time_counterexample` exhibits. -/
def specTariffRateLocal (tLocal : ℤ) (low high : ℚ) : ℚ :=
  if 5 ≤ pyWeekday tLocal ∨ todUs tLocal < 6 * usPerHour ∨ 22 * usPerHour ≤ todUs tLocal
  then low else high

/-- The energy sample refuting the local-time tariff claim:
2023-09-15T05:00:00Z, which is 07:00 Friday in Europe/Oslo. -/
def run1detail : EnergyDetail := ⟨1694754000000000, 1⟩

/-- The record the pipeline emits for `run1detail` with default rates. -/
def run1record : ChargingSessionEnergy :=
  mkChargingSessionEnergy "session1" default_low_net_usage_fee
    default_high_net_usage_fee costFriday run1detail

/-- C1 (counterexample): for the sample at 2023-09-15T05:00:00Z (05:00 UTC =
07:00 Europe/Oslo, a Friday), the pipeline bills the low night rate (it tests
the UTC wall clock, 05:00 < 06:00), while the tariff rule evaluated on the
billing-zone local time (07:00, weekday, inside `[06:00, 22:00)`) selects the
high rate: the claim that the decision is made on local wall-clock time is
false on the code at this input. -/
theorem tariff_local_time_counterexample :
    get_charging_session_energy osloLocalDate2023 provider2023 PriceArea.NO2
        default_low_net_usage_fee default_high_net_usage_fee
        [⟨"session1", [run1detail]⟩] ⟨[], ⟨[], 0⟩⟩ =
      .ok ([run1record], [], finalState2023) ∧
    run1record.NetUsageCost = run1record.Energy * default_low_net_usage_fee ∧
    run1record.Energy * specTariffRateLocal (osloLocalInstant2023 run1record.Timestamp)
        default_low_net_usage_fee default_high_net_usage_fee =
      run1record.Energy * default_high_net_usage_fee ∧
    run1record.NetUsageCost ≠
      run1record.Energy * specTariffRateLocal (osloLocalInstant2023 run1record.Timestamp)
        default_low_net_usage_fee default_high_net_usage_fee := by
  refine ⟨rfl, rfl, rfl, ?_⟩
  have h1 : run1record.NetUsageCost = (1 : ℚ) * 0.2259 := rfl
  have h2 : run1record.Energy * specTariffRateLocal (osloLocalInstant2023 run1record.Timestamp)
      default_low_net_usage_fee default_high_net_usage_fee = (1 : ℚ) * 0.3059 := rfl
  rw [h1, h2]
  norm_num

/-- C1 (amended): the tariff decision for every emitted record is a pure
function of the record's UTC instant: the weekday test and the
`[06:00, 22:00)` test are evaluated on the UTC wall clock of the sample's
timestamp (no conversion to the billing time zone takes place). -/
theorem tariff_decided_on_utc_instant (oslo_date : ℤ → ℤ) (provider : PriceProvider)
    (area : PriceArea) (low high : ℚ) (sessions : List ChargingSession)
    (st : PipelineState) (records : List ChargingSessionEnergy)
    (diags : List (String × ℤ)) (st' : PipelineState)
    (h : get_charging_session_energy oslo_date provider area low high sessions st =
      .ok (records, diags, st'))
    (r : ChargingSessionEnergy) (hr : r ∈ records) :
    r.NetUsageCost = r.Energy *
      (if 5 ≤ pyWeekday r.Timestamp ∨ todUs r.Timestamp < 6 * usPerHour ∨
          22 * usPerHour ≤ todUs r.Timestamp then low else high) := by
  obtain ⟨sessionId, cost, energy, hre⟩ := mem_run_records h hr
  rw [hre]
  show energy.Energy * net_usage_fee_per_kwh energy.Timestamp low high = _
  rw [net_usage_fee_spec]
  rfl

/-- Witness for `tariff_decided_on_utc_instant` on the 05:00 UTC record. -/
theorem tariff_decided_on_utc_instant_witness :
    run1record.NetUsageCost = run1record.Energy *
      (if 5 ≤ pyWeekday run1record.Timestamp ∨
          todUs run1record.Timestamp < 6 * usPerHour ∨
          22 * usPerHour ≤ todUs run1record.Timestamp
        then default_low_net_usage_fee else default_high_net_usage_fee) :=
  tariff_decided_on_utc_instant osloLocalDate2023 provider2023 PriceArea.NO2
    default_low_net_usage_fee default_high_net_usage_fee
    [⟨"session1", [run1detail]⟩] ⟨[], ⟨[], 0⟩⟩ [run1record] [] finalState2023
    rfl run1record (List.mem_singleton.mpr rfl)

/-- A miss of the linear scan is exactly an instant contained, half-open, in
no interval of the window. -/
theorem findApplicableCost_eq_none {t : ℤ} {L : List ElectricityCost}
    (h : ∀ c ∈ L, ¬(c.time_start ≤ t ∧ t < c.time_end)) :
    findApplicableCost t L = none := by
  induction L with
  | nil => rfl
  | cons c rest ih =>
    unfold findApplicableCost
    rw [if_neg (h c (List.mem_cons_self c rest))]
    exact ih fun c' hc' => h c' (List.mem_cons_of_mem c hc')

/-- Detail processing splits over list append. -/
theorem runEnergyDetails_append (oslo_date : ℤ → ℤ) (provider : PriceProvider)
    (area : PriceArea) (low high : ℚ) (sessionId : String)
    (l1 l2 : List EnergyDetail) (st : PipelineState)
    {r1 : List ChargingSessionEnergy} {d1 : List (String × ℤ)} {st1 : PipelineState}
    (h1 : runEnergyDetails oslo_date provider area low high sessionId l1 st =
      .ok (r1, d1, st1))
    {r2 : List ChargingSessionEnergy} {d2 : List (String × ℤ)} {st2 : PipelineState}
    (h2 : runEnergyDetails oslo_date provider area low high sessionId l2 st1 =
      .ok (r2, d2, st2)) :
    runEnergyDetails oslo_date provider area low high sessionId (l1 ++ l2) st =
      .ok (r1 ++ r2, d1 ++ d2, st2) := by
  induction l1 generalizing st r1 d1 with
  | nil =>
    unfold runEnergyDetails at h1
    injection h1 with h1
    injection h1 with ha hb
    injection hb with hb hc
    rw [List.nil_append, ← ha, ← hb, List.nil_append, List.nil_append]
    rw [← hc] at h2
    exact h2
  | cons energy rest ih =>
    simp only [runEnergyDetails] at h1
    simp only [List.cons_append, runEnergyDetails]
    rcases hg : getDayCosts oslo_date provider area st (dayOf energy.Timestamp) with
      e | ⟨window, stg⟩
    · rw [hg] at h1
      exact absurd h1 (by simp)
    · rw [hg] at h1
      try rw [hg]
      try dsimp only at h1
      try dsimp only
      rcases hfind : findApplicableCost energy.Timestamp window with _ | applicable_cost
      · rw [hfind] at h1
        try rw [hfind]
        try dsimp only at h1
        try dsimp only
        rcases hrec : runEnergyDetails oslo_date provider area low high sessionId rest stg with
          e | ⟨records0, diags0, st0⟩
        · rw [hrec] at h1
          exact absurd h1 (by simp)
        · rw [hrec] at h1
          try dsimp only at h1
          injection h1 with h1
          injection h1 with ha hb
          injection hb with hb hc
          rw [hc] at hrec
          simp only [List.append_eq]
          rw [ih stg hrec]
          try dsimp only
          rw [← ha, ← hb]
          rfl
      · rw [hfind] at h1
        try rw [hfind]
        try dsimp only at h1
        try dsimp only
        rcases hrec : runEnergyDetails oslo_date provider area low high sessionId rest stg with
          e | ⟨records0, diags0, st0⟩
        · rw [hrec] at h1
          exact absurd h1 (by simp)
        · rw [hrec] at h1
          try dsimp only at h1
          injection h1 with h1
          injection h1 with ha hb
          injection hb with hb hc
          rw [hc] at hrec
          simp only [List.append_eq]
          rw [ih stg hrec]
          try dsimp only
          rw [← ha, ← hb]
          rfl

/-- C8: an energy sample whose instant is contained (half-open) in none of the
intervals of its day's window produces no record: the run emits the records
of the samples before and after it unchanged, adds one skip diagnostic for
the unmatched sample, does not abort, and continues with the same state
evolution. -/
theorem no_match_skips_and_continues (oslo_date : ℤ → ℤ) (provider : PriceProvider)
    (area : PriceArea) (low high : ℚ) (sessionId : String)
    (pre post : List EnergyDetail) (energy : EnergyDetail) (st : PipelineState)
    {r1 : List ChargingSessionEnergy} {d1 : List (String × ℤ)} {st1 : PipelineState}
    (h1 : runEnergyDetails oslo_date provider area low high sessionId pre st =
      .ok (r1, d1, st1))
    {window : List ElectricityCost} {st2 : PipelineState}
    (h2 : getDayCosts oslo_date provider area st1 (dayOf energy.Timestamp) =
      .ok (window, st2))
    (hnm : ∀ c ∈ window, ¬(c.time_start ≤ energy.Timestamp ∧
      energy.Timestamp < c.time_end))
    {r2 : List ChargingSessionEnergy} {d2 : List (String × ℤ)} {st3 : PipelineState}
    (h3 : runEnergyDetails oslo_date provider area low high sessionId post st2 =
      .ok (r2, d2, st3)) :
    runEnergyDetails oslo_date provider area low high sessionId
        (pre ++ energy :: post) st =
      .ok (r1 ++ r2, d1 ++ (sessionId, energy.Timestamp) :: d2, st3) := by
  have hmid : runEnergyDetails oslo_date provider area low high sessionId
      (energy :: post) st1 =
      .ok (r2, (sessionId, energy.Timestamp) :: d2, st3) := by
    unfold runEnergyDetails
    rw [h2]
    try dsimp only
    rw [findApplicableCost_eq_none hnm]
    try dsimp only
    rw [h3]
  exact runEnergyDetails_append oslo_date provider area low high sessionId
    pre (energy :: post) st h1 hmid

/-- Fixture: one price interval covering only `[10:00Z, 11:00Z)` of UTC day
19615, leaving the rest of the day as a gap. -/
def gapCost : ElectricityCost := ⟨2, 0.2, 11.5, 1694772000000000, 1694775600000000⟩

/-- Fixture provider publishing only `gapCost` for day 19615 / NO2. -/
def gapProvider : PriceProvider :=
  ⟨fun d a => if d = 19615 ∧ a = PriceArea.NO2 then some [gapCost] else none⟩

/-- The pipeline state after the window of day 19615 has been resolved over
`gapProvider`. -/
def gapState : PipelineState :=
  ⟨[(19615, [gapCost])], ⟨[((19615, PriceArea.NO2), [gapCost])], 1⟩⟩

/-- Fixture sample at 10:30Z (matched by `gapCost`). -/
def preDetail : EnergyDetail := ⟨1694773800000000, 2⟩

/-- Fixture sample at 12:00Z, inside the gap (no interval contains it). -/
def gapDetail : EnergyDetail := ⟨1694779200000000, 3⟩

/-- Fixture sample at 10:45Z (matched by `gapCost`). -/
def postDetail : EnergyDetail := ⟨1694774700000000, 4⟩

/-- Record emitted for `preDetail`. -/
def preRecord : ChargingSessionEnergy :=
  mkChargingSessionEnergy "session1" default_low_net_usage_fee
    default_high_net_usage_fee gapCost preDetail

/-- Record emitted for `postDetail`. -/
def postRecord : ChargingSessionEnergy :=
  mkChargingSessionEnergy "session1" default_low_net_usage_fee
    default_high_net_usage_fee gapCost postDetail

/-- Witness for `no_match_skips_and_continues`: with the gap provider, the
12:00Z sample between two matched samples yields no record, one diagnostic,
and both neighbours' records. -/
theorem no_match_skips_and_continues_witness :
    runEnergyDetails flatLocalDate gapProvider PriceArea.NO2
        default_low_net_usage_fee default_high_net_usage_fee "session1"
        ([preDetail] ++ gapDetail :: [postDetail]) ⟨[], ⟨[], 0⟩⟩ =
      .ok ([preRecord] ++ [postRecord],
        [] ++ ("session1", gapDetail.Timestamp) :: [], gapState) :=
  no_match_skips_and_continues flatLocalDate gapProvider PriceArea.NO2
    default_low_net_usage_fee default_high_net_usage_fee "session1"
    [preDetail] [postDetail] gapDetail ⟨[], ⟨[], 0⟩⟩
    rfl rfl (by decide) rfl

/-- Two price intervals that agree on everything the pipeline reads: the NOK
unit price and the boundaries.  `EUR_per_kWh` and `EXR` are unconstrained. -/
def costEqvNOK (c c' : ElectricityCost) : Prop :=
  c.NOK_per_kWh = c'.NOK_per_kWh ∧ c.time_start = c'.time_start ∧ c.time_end = c'.time_end

/-- Pointwise `costEqvNOK` on interval lists. -/
def costsEqvNOK (L L' : List ElectricityCost) : Prop := List.Forall₂ costEqvNOK L L'

/-- `costsEqvNOK` on optional interval lists (matching shapes). -/
def optCostsEqvNOK : Option (List ElectricityCost) → Option (List ElectricityCost) → Prop
  | none, none => True
  | some L, some L' => costsEqvNOK L L'
  | _, _ => False

/-- `costEqvNOK` on optional intervals (matching shapes). -/
def optCostEqvNOK : Option ElectricityCost → Option ElectricityCost → Prop
  | none, none => True
  | some c, some c' => costEqvNOK c c'
  | _, _ => False

/-- Two providers whose price data for an area differ at most in the
`EUR_per_kWh` and `EXR` fields of intervals (same availability, same NOK
prices, same boundaries). -/
def providerEqvNOK (area : PriceArea) (p p' : PriceProvider) : Prop :=
  ∀ d, optCostsEqvNOK (p.fetch d area) (p'.fetch d area)

/-- Caches related entrywise up to `costEqvNOK`. -/
def cacheEqvNOK (c c' : List ((ℤ × PriceArea) × List ElectricityCost)) : Prop :=
  List.Forall₂ (fun e e' => e.1 = e'.1 ∧ costsEqvNOK e.2 e'.2) c c'

/-- Cache states related up to `costEqvNOK`, with equal fetch counts. -/
def cacheStateEqvNOK (s s' : CacheState) : Prop :=
  cacheEqvNOK s.cache s'.cache ∧ s.fetchCount = s'.fetchCount

/-- DayPriceCache results related up to `costEqvNOK` (same error otherwise). -/
def fetchResultEqvNOK :
    Except String (List ElectricityCost × CacheState) →
    Except String (List ElectricityCost × CacheState) → Prop
  | .error e, .error e' => e = e'
  | .ok (L, s), .ok (L', s') => costsEqvNOK L L' ∧ cacheStateEqvNOK s s'
  | _, _ => False

/-- Per-run `costs` dictionaries related entrywise up to `costEqvNOK`. -/
def costsMapEqvNOK (m m' : List (ℤ × List ElectricityCost)) : Prop :=
  List.Forall₂ (fun e e' => e.1 = e'.1 ∧ costsEqvNOK e.2 e'.2) m m'

/-- Pipeline states related up to `costEqvNOK`. -/
def pipelineStateEqvNOK (st st' : PipelineState) : Prop :=
  costsMapEqvNOK st.costs st'.costs ∧ cacheStateEqvNOK st.cacheState st'.cacheState

/-- Window-resolution results related up to `costEqvNOK`. -/
def windowResultEqvNOK :
    Except String (List ElectricityCost × PipelineState) →
    Except String (List ElectricityCost × PipelineState) → Prop
  | .error e, .error e' => e = e'
  | .ok (w, st), .ok (w', st') => costsEqvNOK w w' ∧ pipelineStateEqvNOK st st'
  | _, _ => False

/-- Pipeline results over related price data: identical records, identical
diagnostics, related final states (or the same error). -/
def runResultEqvNOK :
    Except String (List ChargingSessionEnergy × List (String × ℤ) × PipelineState) →
    Except String (List ChargingSessionEnergy × List (String × ℤ) × PipelineState) → Prop
  | .error e, .error e' => e = e'
  | .ok (r, dg, st), .ok (r', dg', st') => r = r' ∧ dg = dg' ∧ pipelineStateEqvNOK st st'
  | _, _ => False

theorem lookupCache_eqvNOK {c c' : List ((ℤ × PriceArea) × List ElectricityCost)}
    (h : cacheEqvNOK c c') (key : ℤ × PriceArea) :
    optCostsEqvNOK (lookupCache c key) (lookupCache c' key) := by
  induction h with
  | nil => trivial
  | @cons e e' r r' he _ ih =>
    obtain ⟨k1, v1⟩ := e
    obtain ⟨k2, v2⟩ := e'
    obtain ⟨hk, hv⟩ := he
    unfold lookupCache
    dsimp only at hk
    rw [hk]
    by_cases hkey : k2 = key
    · rw [if_pos hkey, if_pos hkey]
      exact hv
    · rw [if_neg hkey, if_neg hkey]
      exact ih

theorem lookupCosts_eqvNOK {m m' : List (ℤ × List ElectricityCost)}
    (h : costsMapEqvNOK m m') (key : ℤ) :
    optCostsEqvNOK (lookupCosts m key) (lookupCosts m' key) := by
  induction h with
  | nil => trivial
  | @cons e e' r r' he _ ih =>
    obtain ⟨k1, v1⟩ := e
    obtain ⟨k2, v2⟩ := e'
    obtain ⟨hk, hv⟩ := he
    unfold lookupCosts
    dsimp only at hk
    rw [hk]
    by_cases hkey : k2 = key
    · rw [if_pos hkey, if_pos hkey]
      exact hv
    · rw [if_neg hkey, if_neg hkey]
      exact ih

theorem fetch_eqvNOK {area : PriceArea} {p p' : PriceProvider}
    (hp : providerEqvNOK area p p') {s s' : CacheState}
    (hs : cacheStateEqvNOK s s') (d : ℤ) :
    fetchResultEqvNOK (fetch_electricity_cost p d area s)
      (fetch_electricity_cost p' d area s') := by
  unfold fetch_electricity_cost
  have hl := lookupCache_eqvNOK hs.1 (d, area)
  rcases h1 : lookupCache s.cache (d, area) with _ | v <;>
    rcases h2 : lookupCache s'.cache (d, area) with _ | v'
  · rw [h1, h2] at hl
    have hpd := hp d
    rcases h3 : p.fetch d area with _ | data <;> rcases h4 : p'.fetch d area with _ | data'
    · simp only [h1, h2, h3, h4]
      rfl
    · rw [h3, h4] at hpd
      exact hpd.elim
    · rw [h3, h4] at hpd
      exact hpd.elim
    · rw [h3, h4] at hpd
      simp only [h1, h2, h3, h4]
      exact ⟨hpd, List.Forall₂.cons ⟨rfl, hpd⟩ hs.1, by rw [hs.2]⟩
  · rw [h1, h2] at hl
    exact hl.elim
  · rw [h1, h2] at hl
    exact hl.elim
  · rw [h1, h2] at hl
    simp only [h1, h2]
    exact ⟨hl, hs⟩

theorem adjustAndFilterCosts_eqvNOK {L L' : List ElectricityCost} (a b : ℤ)
    (h : costsEqvNOK L L') :
    costsEqvNOK (adjustAndFilterCosts a b L) (adjustAndFilterCosts a b L') := by
  induction h with
  | nil => exact List.Forall₂.nil
  | @cons c c' r r' he _ ih =>
    unfold adjustAndFilterCosts
    dsimp only
    by_cases hcond : a < c.time_end ∧ c.time_start ≤ b
    · rw [if_pos hcond, if_pos (by rw [← he.2.1, ← he.2.2]; exact hcond)]
      exact List.Forall₂.cons ⟨he.1, he.2.1, he.2.2⟩ ih
    · rw [if_neg hcond, if_neg (by rw [← he.2.1, ← he.2.2]; exact hcond)]
      exact ih

theorem findApplicableCost_eqvNOK {L L' : List ElectricityCost} (t : ℤ)
    (h : costsEqvNOK L L') :
    optCostEqvNOK (findApplicableCost t L) (findApplicableCost t L') := by
  induction h with
  | nil => trivial
  | @cons c c' r r' he _ ih =>
    unfold findApplicableCost
    by_cases hcond : c.time_start ≤ t ∧ t < c.time_end
    · rw [if_pos hcond, if_pos (by rw [← he.2.1, ← he.2.2]; exact hcond)]
      exact he
    · rw [if_neg hcond, if_neg (by rw [← he.2.1, ← he.2.2]; exact hcond)]
      exact ih

/-- The emitted record reads only the NOK price of the matched interval. -/
theorem mkChargingSessionEnergy_congr {cost cost' : ElectricityCost}
    (h : costEqvNOK cost cost') (sessionId : String) (low high : ℚ)
    (energy : EnergyDetail) :
    mkChargingSessionEnergy sessionId low high cost energy =
      mkChargingSessionEnergy sessionId low high cost' energy := by
  unfold mkChargingSessionEnergy
  rw [h.1]

theorem fetch_utc_eqvNOK (oslo_date : ℤ → ℤ) {area : PriceArea} {p p' : PriceProvider}
    (hp : providerEqvNOK area p p') {s s' : CacheState}
    (hs : cacheStateEqvNOK s s') (d : ℤ) :
    fetchResultEqvNOK (fetch_electricity_cost_utc oslo_date p d area s)
      (fetch_electricity_cost_utc oslo_date p' d area s') := by
  unfold fetch_electricity_cost_utc
  dsimp only
  have hfirst := fetch_eqvNOK hp hs (oslo_date (d * usPerDay))
  by_cases heq : oslo_date (d * usPerDay) = oslo_date (d * usPerDay + usPerDay - usPerSecond)
  · rw [if_pos heq, if_pos heq]
    rcases ha : fetch_electricity_cost p (oslo_date (d * usPerDay)) area s with
      e | ⟨L1, s1⟩ <;>
      rcases hb : fetch_electricity_cost p' (oslo_date (d * usPerDay)) area s' with
        e' | ⟨L1', s1'⟩
    · rw [ha, hb] at hfirst
      simp only [ha, hb]
      exact hfirst
    · rw [ha, hb] at hfirst
      exact hfirst.elim
    · rw [ha, hb] at hfirst
      exact hfirst.elim
    · rw [ha, hb] at hfirst
      simp only [ha, hb]
      exact ⟨adjustAndFilterCosts_eqvNOK _ _ hfirst.1, hfirst.2⟩
  · rw [if_neg heq, if_neg heq]
    rcases ha : fetch_electricity_cost p (oslo_date (d * usPerDay)) area s with
      e | ⟨L1, s1⟩ <;>
      rcases hb : fetch_electricity_cost p' (oslo_date (d * usPerDay)) area s' with
        e' | ⟨L1', s1'⟩
    · rw [ha, hb] at hfirst
      simp only [ha, hb]
      exact hfirst
    · rw [ha, hb] at hfirst
      exact hfirst.elim
    · rw [ha, hb] at hfirst
      exact hfirst.elim
    · rw [ha, hb] at hfirst
      have hsecond := fetch_eqvNOK hp hfirst.2
        (oslo_date (d * usPerDay + usPerDay - usPerSecond))
      rcases hc : fetch_electricity_cost p
          (oslo_date (d * usPerDay + usPerDay - usPerSecond)) area s1 with
        e | ⟨L2, s2⟩ <;>
        rcases hd2 : fetch_electricity_cost p'
            (oslo_date (d * usPerDay + usPerDay - usPerSecond)) area s1' with
          e' | ⟨L2', s2'⟩
      · rw [hc, hd2] at hsecond
        simp only [ha, hb, hc, hd2]
        exact hsecond
      · rw [hc, hd2] at hsecond
        exact hsecond.elim
      · rw [hc, hd2] at hsecond
        exact hsecond.elim
      · rw [hc, hd2] at hsecond
        simp only [ha, hb, hc, hd2]
        exact ⟨adjustAndFilterCosts_eqvNOK _ _ (List.rel_append hfirst.1 hsecond.1),
          hsecond.2⟩

theorem getDayCosts_eqvNOK (oslo_date : ℤ → ℤ) {area : PriceArea} {p p' : PriceProvider}
    (hp : providerEqvNOK area p p') {st st' : PipelineState}
    (hst : pipelineStateEqvNOK st st') (energy_date : ℤ) :
    windowResultEqvNOK (getDayCosts oslo_date p area st energy_date)
      (getDayCosts oslo_date p' area st' energy_date) := by
  unfold getDayCosts
  have hl := lookupCosts_eqvNOK hst.1 energy_date
  rcases h1 : lookupCosts st.costs energy_date with _ | w <;>
    rcases h2 : lookupCosts st'.costs energy_date with _ | w'
  · rw [h1, h2] at hl
    have hf := fetch_utc_eqvNOK oslo_date hp hst.2 energy_date
    rcases h3 : fetch_electricity_cost_utc oslo_date p energy_date area st.cacheState with
      e | ⟨w1, cs1⟩ <;>
      rcases h4 : fetch_electricity_cost_utc oslo_date p' energy_date area st'.cacheState with
        e' | ⟨w1', cs1'⟩
    · rw [h3, h4] at hf
      simp only [h1, h2, h3, h4]
      exact hf
    · rw [h3, h4] at hf
      exact hf.elim
    · rw [h3, h4] at hf
      exact hf.elim
    · rw [h3, h4] at hf
      simp only [h1, h2, h3, h4]
      exact ⟨hf.1, List.Forall₂.cons ⟨rfl, hf.1⟩ hst.1, hf.2⟩
  · rw [h1, h2] at hl
    exact hl.elim
  · rw [h1, h2] at hl
    exact hl.elim
  · rw [h1, h2] at hl
    simp only [h1, h2]
    exact ⟨hl, hst⟩

theorem runEnergyDetails_eqvNOK (oslo_date : ℤ → ℤ) {area : PriceArea}
    {p p' : PriceProvider} (hp : providerEqvNOK area p p') (low high : ℚ)
    (sessionId : String) (details : List EnergyDetail) {st st' : PipelineState}
    (hst : pipelineStateEqvNOK st st') :
    runResultEqvNOK
      (runEnergyDetails oslo_date p area low high sessionId details st)
      (runEnergyDetails oslo_date p' area low high sessionId details st') := by
  induction details generalizing st st' with
  | nil => exact ⟨rfl, rfl, hst⟩
  | cons energy rest ih =>
    simp only [runEnergyDetails]
    have hg := getDayCosts_eqvNOK oslo_date hp hst (dayOf energy.Timestamp)
    rcases h1 : getDayCosts oslo_date p area st (dayOf energy.Timestamp) with
      e | ⟨w, st1⟩ <;>
      rcases h2 : getDayCosts oslo_date p' area st' (dayOf energy.Timestamp) with
        e' | ⟨w', st1'⟩
    · rw [h1, h2] at hg
      simp only [h1, h2]
      exact hg
    · rw [h1, h2] at hg
      exact hg.elim
    · rw [h1, h2] at hg
      exact hg.elim
    · rw [h1, h2] at hg
      have hfind := findApplicableCost_eqvNOK energy.Timestamp hg.1
      have hrec := ih hg.2
      rcases h3 : findApplicableCost energy.Timestamp w with _ | cost <;>
        rcases h4 : findApplicableCost energy.Timestamp w' with _ | cost'
      · rcases h5 : runEnergyDetails oslo_date p area low high sessionId rest st1 with
          e | ⟨recs, dgs, st2⟩ <;>
          rcases h6 : runEnergyDetails oslo_date p' area low high sessionId rest st1' with
            e' | ⟨recs', dgs', st2'⟩
        · rw [h5, h6] at hrec
          simp only [h1, h2, h3, h4, h5, h6]
          exact hrec
        · rw [h5, h6] at hrec
          exact hrec.elim
        · rw [h5, h6] at hrec
          exact hrec.elim
        · rw [h5, h6] at hrec
          simp only [h1, h2, h3, h4, h5, h6]
          exact ⟨hrec.1, by rw [hrec.2.1], hrec.2.2⟩
      · rw [h3, h4] at hfind
        exact hfind.elim
      · rw [h3, h4] at hfind
        exact hfind.elim
      · rw [h3, h4] at hfind
        rcases h5 : runEnergyDetails oslo_date p area low high sessionId rest st1 with
          e | ⟨recs, dgs, st2⟩ <;>
          rcases h6 : runEnergyDetails oslo_date p' area low high sessionId rest st1' with
            e' | ⟨recs', dgs', st2'⟩
        · rw [h5, h6] at hrec
          simp only [h1, h2, h3, h4, h5, h6]
          exact hrec
        · rw [h5, h6] at hrec
          exact hrec.elim
        · rw [h5, h6] at hrec
          exact hrec.elim
        · rw [h5, h6] at hrec
          simp only [h1, h2, h3, h4, h5, h6]
          refine ⟨?_, hrec.2.1, hrec.2.2⟩
          rw [hrec.1, mkChargingSessionEnergy_congr hfind sessionId low high energy]

theorem run_eqvNOK (oslo_date : ℤ → ℤ) {area : PriceArea} {p p' : PriceProvider}
    (hp : providerEqvNOK area p p') (low high : ℚ)
    (sessions : List ChargingSession) {st st' : PipelineState}
    (hst : pipelineStateEqvNOK st st') :
    runResultEqvNOK
      (get_charging_session_energy oslo_date p area low high sessions st)
      (get_charging_session_energy oslo_date p' area low high sessions st') := by
  induction sessions generalizing st st' with
  | nil => exact ⟨rfl, rfl, hst⟩
  | cons session rest ih =>
    simp only [get_charging_session_energy]
    have h1r := runEnergyDetails_eqvNOK oslo_date hp low high session.Id
      session.EnergyDetails hst
    rcases ha : runEnergyDetails oslo_date p area low high session.Id
        session.EnergyDetails st with e | ⟨recs1, dgs1, st1⟩ <;>
      rcases hb : runEnergyDetails oslo_date p' area low high session.Id
          session.EnergyDetails st' with e' | ⟨recs1', dgs1', st1'⟩
    · rw [ha, hb] at h1r
      simp only [ha, hb]
      exact h1r
    · rw [ha, hb] at h1r
      exact h1r.elim
    · rw [ha, hb] at h1r
      exact h1r.elim
    · rw [ha, hb] at h1r
      have h2r := ih h1r.2.2
      rcases hc : get_charging_session_energy oslo_date p area low high rest st1 with
        e | ⟨recs2, dgs2, st2⟩ <;>
        rcases hd2 : get_charging_session_energy oslo_date p' area low high rest st1' with
          e' | ⟨recs2', dgs2', st2'⟩
      · rw [hc, hd2] at h2r
        simp only [ha, hb, hc, hd2]
        exact h2r
      · rw [hc, hd2] at h2r
        exact h2r.elim
      · rw [hc, hd2] at h2r
        exact h2r.elim
      · rw [hc, hd2] at h2r
        simp only [ha, hb, hc, hd2]
        exact ⟨by rw [h1r.1, h2r.1], by rw [h1r.2.1, h2r.2.1], h2r.2.2⟩

/-- C10: every emitted record carries currency `"NOK"`, and the records and
diagnostics of a run are derived solely from the `NOK_per_kWh` field and the
boundaries of the price data: two runs whose providers and initial states
differ at most in `EUR_per_kWh`/`EXR` values produce identical record and
diagnostic sequences (or fail identically). -/
theorem nok_only_and_eur_exr_irrelevant (oslo_date : ℤ → ℤ) (area : PriceArea)
    (low high : ℚ) (sessions : List ChargingSession)
    (p p' : PriceProvider) (st st' : PipelineState)
    (hp : providerEqvNOK area p p') (hst : pipelineStateEqvNOK st st') :
    (∀ records diags stf r,
      get_charging_session_energy oslo_date p area low high sessions st =
        .ok (records, diags, stf) →
      r ∈ records → r.CostCurrency = "NOK") ∧
    runResultEqvNOK
      (get_charging_session_energy oslo_date p area low high sessions st)
      (get_charging_session_energy oslo_date p' area low high sessions st') := by
  constructor
  · intro records diags stf r h hr
    obtain ⟨sessionId, cost, energy, hre⟩ := mem_run_records h hr
    rw [hre]
    rfl
  · exact run_eqvNOK oslo_date hp low high sessions hst

/-- `gapProvider` with different `EUR_per_kWh` and `EXR` values. -/
def gapProviderEUR : PriceProvider :=
  ⟨fun d a =>
    if d = 19615 ∧ a = PriceArea.NO2 then
      some [⟨2, 0.99, 12.5, 1694772000000000, 1694775600000000⟩]
    else none⟩

/-- Witness for `nok_only_and_eur_exr_irrelevant`: a concrete run over
`gapProvider` emits only NOK records, and replacing the provider by
`gapProviderEUR` (same NOK prices and boundaries, different EUR/EXR) is
related, i.e. yields identical records and diagnostics. -/
theorem nok_only_and_eur_exr_irrelevant_witness :
    (∀ records diags stf r,
      get_charging_session_energy flatLocalDate gapProvider PriceArea.NO2
          default_low_net_usage_fee default_high_net_usage_fee
          [⟨"session1", [preDetail]⟩] ⟨[], ⟨[], 0⟩⟩ = .ok (records, diags, stf) →
      r ∈ records → r.CostCurrency = "NOK") ∧
    runResultEqvNOK
      (get_charging_session_energy flatLocalDate gapProvider PriceArea.NO2
        default_low_net_usage_fee default_high_net_usage_fee
        [⟨"session1", [preDetail]⟩] ⟨[], ⟨[], 0⟩⟩)
      (get_charging_session_energy flatLocalDate gapProviderEUR PriceArea.NO2
        default_low_net_usage_fee default_high_net_usage_fee
        [⟨"session1", [preDetail]⟩] ⟨[], ⟨[], 0⟩⟩) :=
  nok_only_and_eur_exr_irrelevant flatLocalDate PriceArea.NO2
    default_low_net_usage_fee default_high_net_usage_fee
    [⟨"session1", [preDetail]⟩] gapProvider gapProviderEUR ⟨[], ⟨[], 0⟩⟩ ⟨[], ⟨[], 0⟩⟩
    (by
      intro d
      unfold gapProvider gapProviderEUR
      dsimp only
      by_cases hd : d = 19615 ∧ PriceArea.NO2 = PriceArea.NO2
      · rw [if_pos hd, if_pos hd]
        exact List.Forall₂.cons ⟨rfl, rfl, rfl⟩ List.Forall₂.nil
      · rw [if_neg hd, if_neg hd]
        trivial)
    ⟨List.Forall₂.nil, List.Forall₂.nil, rfl⟩
